import Mathlib

/-!
Verification of the QueueCTL job-queue engine.

The definitions below are a shallow embedding of the repository's Python
sources:

* `entities.py` — the `Job` dataclass, the `JobState` constants and the
  `Config` dataclass;
* `database.py` — the `Storage` class over a SQLite `jobs` table, modelled as
  a list of rows in rowid order (SQLite's `INSERT OR REPLACE` deletes the
  conflicting row and appends a fresh one, so replacement moves a row to the
  end);
* `worker_logic.py` — the executor (`Worker._execute_job`,
  `Worker._handle_job_failure`) and the stuck-job recovery statement run at
  worker startup;
* `cli.py` — the `enqueue` and `dlq retry` commands.

Timestamps are kept as strings, exactly as the code stores them, and are
compared the way SQLite compares TEXT values: bytewise (`memcmp`), here
codepoint-wise on the characters, which coincides with byte order for the
ASCII timestamps the program produces.  Wall-clock reads
(`datetime.utcnow()`, SQLite's `datetime('now', '-5 minutes')`) become
explicit string parameters, and the construction
`(utcnow() + timedelta(seconds = s)).isoformat() + "Z"` becomes an explicit
formatter parameter `retryAt : Nat → String`.
-/

/-- SQLite TEXT comparison (`memcmp` order) on the underlying characters. -/
def charsLt : List Char → List Char → Bool
  | _, [] => false
  | [], _ :: _ => true
  | a :: as, b :: bs =>
      decide (a.toNat < b.toNat) || (a.toNat == b.toNat && charsLt as bs)

/-- `a < b` for SQLite TEXT values. -/
def strLt (a b : String) : Bool := charsLt a.data b.data

/-- `a <= b` for SQLite TEXT values. -/
def strLe (a b : String) : Bool := !(strLt b a)

/-- `entities.py::JobState.PENDING`. -/
def JobState.PENDING : String := "pending"

/-- `entities.py::JobState.PROCESSING`. -/
def JobState.PROCESSING : String := "processing"

/-- `entities.py::JobState.COMPLETED`. -/
def JobState.COMPLETED : String := "completed"

/-- `entities.py::JobState.FAILED`. -/
def JobState.FAILED : String := "failed"

/-- `entities.py::JobState.DEAD`. -/
def JobState.DEAD : String := "dead"

/-- `entities.py::Job` — one dataclass instance / one row of the `jobs`
table (the dataclass fields and the table columns coincide). -/
structure Job where
  id : String
  command : String
  state : String := JobState.PENDING
  attempts : Nat := 0
  max_retries : Nat := 3
  timeout : Option Nat := none
  priority : Int := 2
  created_at : String
  updated_at : String
  next_retry_at : Option String := none
  error_message : Option String := none
  locked_by : Option String := none
  locked_at : Option String := none
deriving Repr, DecidableEq

/-- `entities.py::Config` (defaults as in the dataclass). -/
structure Config where
  max_retries : Nat := 3
  backoff_base : Nat := 2
  worker_poll_interval : Float := 1.0
  job_timeout : Nat := 300

/-- The `jobs` table of `database.py::Storage`, rows in rowid order. -/
structure Storage where
  jobs : List Job
deriving Repr, DecidableEq

/-- The 11 columns `Storage.get_job` / `acquire_job` SELECT: everything but
`locked_by` and `locked_at`, so `Job(**dict(row))` leaves the two lock
fields at their dataclass default `None`. -/
def projectRow (r : Job) : Job := { r with locked_by := none, locked_at := none }

/-- `database.py::Storage.save_job`: sets `updated_at = now`, then
`INSERT OR REPLACE` writes every column from the job except the two lock
columns, which are written `NULL`.  The replaced row gets a fresh rowid,
i.e. moves to the end of the table. -/
def Storage.save_job (st : Storage) (j : Job) (now : String) : Storage :=
  ⟨(st.jobs.filter fun r => decide (¬ r.id = j.id)) ++
    [{ j with updated_at := now, locked_by := none, locked_at := none }]⟩

/-- `database.py::Storage.get_job`: SELECT of the 11 non-lock columns by id. -/
def Storage.get_job (st : Storage) (job_id : String) : Option Job :=
  (st.jobs.find? fun r => decide (r.id = job_id)).map projectRow

/-- The WHERE clause of `Storage.acquire_job`:
`(state = 'pending' OR (state = 'failed' AND (next_retry_at IS NULL OR
next_retry_at <= now))) AND (locked_by IS NULL OR locked_at <
datetime('now', '-5 minutes'))`.  `now` is the ISO string bound to the
query parameter; `cut` is the string SQLite produces for
`datetime('now', '-5 minutes')`.  A NULL `locked_at` makes the `<`
comparison NULL, hence not satisfied. -/
def eligibleJob (now cut : String) (r : Job) : Bool :=
  (decide (r.state = JobState.PENDING) ||
    (decide (r.state = JobState.FAILED) &&
      (match r.next_retry_at with
       | none => true
       | some t => strLe t now))) &&
  (r.locked_by.isNone ||
    (match r.locked_at with
     | none => false
     | some t => strLt t cut))

/-- `ORDER BY priority ASC, created_at ASC` as a strict comparison. -/
def keyLt (a b : Job) : Bool :=
  decide (a.priority < b.priority) ||
    (a.priority == b.priority && strLt a.created_at b.created_at)

/-- `ORDER BY ... LIMIT 1` over a list of candidate rows: keep the first
row and replace it only when a later row compares strictly smaller, which
is how SQLite's sorter behaves under `LIMIT 1` — ties keep the
earlier-scanned (smaller rowid) row. -/
def selectMinBy (lt : Job → Job → Bool) : List Job → Option Job
  | [] => none
  | r :: rs =>
      match selectMinBy lt rs with
      | none => some r
      | some m => if lt m r then some m else some r

/-- `database.py::Storage.acquire_job`: under `BEGIN EXCLUSIVE`, SELECT the
first eligible row ordered by `priority ASC, created_at ASC`; if one is
found, UPDATE that row's `locked_by`, `locked_at` and `state` columns, and
return the Python `Job` object built from the SELECTed columns with only
its `state` field then set to `processing`.  Returns the acquired job (or
`none`) together with the table after the transaction. -/
def Storage.acquire_job (st : Storage) (worker_id now cut : String) :
    Option Job × Storage :=
  match selectMinBy keyLt (st.jobs.filter (eligibleJob now cut)) with
  | none => (none, st)
  | some row =>
      (some { projectRow row with state := JobState.PROCESSING },
       ⟨st.jobs.map fun r =>
          if r.id = row.id then
            { r with locked_by := some worker_id, locked_at := some now,
                     state := JobState.PROCESSING }
          else r⟩)

/-- `database.py::Storage.release_job`: clear the lock columns of one row. -/
def Storage.release_job (st : Storage) (job_id : String) : Storage :=
  ⟨st.jobs.map fun r =>
    if r.id = job_id then { r with locked_by := none, locked_at := none }
    else r⟩

/-- The recovery statement run once in `worker_logic.py::Worker.start`:
`UPDATE jobs SET state='failed', locked_by=NULL, locked_at=NULL WHERE
state='processing'` (the spec's `reap_stuck_processing`). -/
def Storage.reap_stuck (st : Storage) : Storage :=
  ⟨st.jobs.map fun r =>
    if r.state = JobState.PROCESSING then
      { r with state := JobState.FAILED, locked_by := none, locked_at := none }
    else r⟩

/-- Outcome of `subprocess.run` on a job's command, as `_execute_job`
distinguishes outcomes: normal exit with a code and captured streams,
`TimeoutExpired`, or any other exception. -/
inductive RunResult where
  | exited (returncode : Int) (stdout stderr : String)
  | timedOut
  | raised (msg : String)
deriving Repr, DecidableEq

/-- A non-success outcome: non-zero exit code, timeout, or exception. -/
def RunResult.isFailure : RunResult → Bool
  | RunResult.exited rc _ _ => decide (¬ rc = 0)
  | RunResult.timedOut => true
  | RunResult.raised _ => true

/-- `worker_logic.py::Worker._handle_job_failure`: record the error message;
if `attempts >= max_retries` move to the DLQ (`dead`, no retry time), else
schedule a retry with `next_retry_at = utcnow() + backoff_base ** attempts`
seconds (`retryAt s` is the ISO string for `utcnow() + s` seconds). -/
def handle_job_failure (cfg : Config) (retryAt : Nat → String) (job : Job)
    (error_message : String) : Job :=
  let job := { job with error_message := some error_message }
  if job.max_retries ≤ job.attempts then
    { job with state := JobState.DEAD, next_retry_at := none }
  else
    { job with state := JobState.FAILED,
               next_retry_at := some (retryAt (cfg.backoff_base ^ job.attempts)) }

/-- `worker_logic.py::Worker._execute_job` up to (but not including) the
`finally` block: increment `attempts`, run the command, then classify.
Exit code 0 sets `completed` and clears `error_message` (and touches
nothing else); any other outcome goes through `_handle_job_failure` with
the corresponding error message.  The timeout message uses
`getattr(job, 'timeout', None) or self.config.job_timeout`, so a stored
timeout of `0` falls back to the global default in the message. -/
def execute_job (cfg : Config) (retryAt : Nat → String) (job : Job)
    (res : RunResult) : Job :=
  let job := { job with attempts := job.attempts + 1 }
  match res with
  | RunResult.exited rc _stdout stderr =>
      if rc = 0 then
        { job with state := JobState.COMPLETED, error_message := none }
      else
        handle_job_failure cfg retryAt job
          (if stderr = "" then s!"Exit code: {rc}" else stderr.trim)
  | RunResult.timedOut =>
      let timeout_used :=
        match job.timeout with
        | some t => if t = 0 then cfg.job_timeout else t
        | none => cfg.job_timeout
      handle_job_failure cfg retryAt job
        s!"Job timed out after {timeout_used} seconds"
  | RunResult.raised msg => handle_job_failure cfg retryAt job msg

/-- Exit code and resulting store of one CLI command invocation. -/
structure CliOut where
  exitCode : Nat
  store : Storage
deriving Repr, DecidableEq

/-- `cli.py::dlq_retry`: unknown id or a job not in state `dead` is an
error (exit 1, store untouched); otherwise set `state = pending`, clear
`error_message` and `next_retry_at`, reset `attempts` when the flag is
given, and save. -/
def dlq_retry (st : Storage) (job_id : String) (reset_attempts : Bool)
    (now : String) : CliOut :=
  match st.get_job job_id with
  | none => ⟨1, st⟩
  | some job =>
      if job.state = JobState.DEAD then
        ⟨0, st.save_job
          { job with state := JobState.PENDING, error_message := none,
                     next_retry_at := none,
                     attempts := if reset_attempts then 0 else job.attempts } now⟩
      else ⟨1, st⟩

/-- The parsed job JSON of `cli.py::enqueue`, restricted to the dataclass
field names (`Job.from_dict` drops every other key).  `none` stands for an
absent key; for the `Optional` dataclass fields a key present with JSON
`null` behaves exactly like an absent key, so both are `none` here. -/
structure JobDict where
  id : Option String := none
  command : Option String := none
  state : Option String := none
  attempts : Option Nat := none
  max_retries : Option Nat := none
  timeout : Option Nat := none
  priority : Option Int := none
  created_at : Option String := none
  updated_at : Option String := none
  next_retry_at : Option String := none
  error_message : Option String := none
  locked_by : Option String := none
  locked_at : Option String := none
deriving Repr, DecidableEq

/-- `entities.py::Job.from_dict` followed by `__post_init__`: every
supplied field is taken from the dict, every missing one gets the
dataclass default, missing timestamps become `now`; a dict without `id` or
`command` makes the constructor raise (`none` here). -/
def Job.from_dict (d : JobDict) (now : String) : Option Job :=
  match d.id, d.command with
  | some i, some c =>
      some { id := i, command := c,
             state := d.state.getD JobState.PENDING,
             attempts := d.attempts.getD 0,
             max_retries := d.max_retries.getD 3,
             timeout := d.timeout,
             priority := d.priority.getD 2,
             created_at := d.created_at.getD now,
             updated_at := d.updated_at.getD now,
             next_retry_at := d.next_retry_at,
             error_message := d.error_message,
             locked_by := d.locked_by,
             locked_at := d.locked_at }
  | _, _ => none

/-- The `--priority` choice of `cli.py::enqueue`. -/
inductive PriorityFlag where
  | high
  | medium
  | low
deriving Repr, DecidableEq

/-- `cli.py::enqueue`'s `priority_map`. -/
def priorityVal : PriorityFlag → Int
  | PriorityFlag.high => 1
  | PriorityFlag.medium => 2
  | PriorityFlag.low => 3

/-- The defaulting steps `cli.py::enqueue` applies to the parsed dict
before `Job.from_dict`: fill `max_retries` from the config when absent;
the CLI priority flag overrides the JSON, otherwise an absent priority
becomes 2; the CLI timeout flag overrides the JSON (an absent timeout is
explicitly set to `None`, which the flattening already represents). -/
def enqueueDict (cfg : Config) (pf : Option PriorityFlag) (tf : Option Nat)
    (d : JobDict) : JobDict :=
  let d1 := if d.max_retries.isNone then { d with max_retries := some cfg.max_retries } else d
  let d2 :=
    match pf with
    | some p => { d1 with priority := some (priorityVal p) }
    | none => if d1.priority.isNone then { d1 with priority := some 2 } else d1
  match tf with
  | some t => { d2 with timeout := some t }
  | none => d2

/-- `cli.py::enqueue`: default the dict, build the job (a constructor error
exits 1), reject a duplicate id found via `get_job` (exit 1), else save. -/
def enqueue (st : Storage) (cfg : Config) (pf : Option PriorityFlag)
    (tf : Option Nat) (d : JobDict) (now : String) : CliOut :=
  match Job.from_dict (enqueueDict cfg pf tf d) now with
  | none => ⟨1, st⟩
  | some job =>
      match st.get_job job.id with
      | some _ => ⟨1, st⟩
      | none => ⟨0, st.save_job job now⟩

/-! ### Order facts for the SQLite TEXT comparison and the dispatch key -/

theorem charsLt_nil_right (a : List Char) : charsLt a [] = false := by
  cases a <;> rfl

theorem charsLt_cons_iff (a b : Char) (as bs : List Char) :
    charsLt (a :: as) (b :: bs) = true ↔
      (a.toNat < b.toNat ∨ (a.toNat = b.toNat ∧ charsLt as bs = true)) := by
  simp [charsLt]

theorem charsLt_asymm : ∀ a b : List Char, charsLt a b = true → charsLt b a = false := by
  intro a
  induction a with
  | nil => intro b _; exact charsLt_nil_right b
  | cons aa as ih =>
    intro b h
    cases b with
    | nil => rw [charsLt_nil_right] at h; exact absurd h (by simp)
    | cons bb bs =>
      rw [charsLt_cons_iff] at h
      rw [← Bool.not_eq_true, charsLt_cons_iff]
      rintro (hlt | ⟨he, hrec⟩)
      · rcases h with h1 | ⟨h2, _⟩ <;> omega
      · rcases h with h1 | ⟨h2, hr⟩
        · omega
        · have hf := ih bs hr
          rw [hf] at hrec
          exact absurd hrec (by simp)

theorem charsLt_cotrans :
    ∀ a b c : List Char, charsLt a c = true → charsLt a b = true ∨ charsLt b c = true := by
  intro a
  induction a with
  | nil =>
    intro b c hc
    cases c with
    | nil => rw [charsLt_nil_right] at hc; exact absurd hc (by simp)
    | cons cc cs =>
      cases b with
      | nil => right; exact hc
      | cons bb bs => left; rfl
  | cons aa as ih =>
    intro b c hc
    cases c with
    | nil => rw [charsLt_nil_right] at hc; exact absurd hc (by simp)
    | cons cc cs =>
      cases b with
      | nil => right; rfl
      | cons bb bs =>
        rw [charsLt_cons_iff] at hc
        rw [charsLt_cons_iff, charsLt_cons_iff]
        rcases hc with h1 | ⟨h2, hr⟩
        · by_cases hb : aa.toNat < bb.toNat
          · left; left; exact hb
          · right; left; omega
        · rcases Nat.lt_trichotomy aa.toNat bb.toNat with ht | ht | ht
          · left; left; exact ht
          · rcases ih bs cs hr with hab | hbc
            · left; right; exact ⟨ht, hab⟩
            · right; right; exact ⟨by omega, hbc⟩
          · right; left; omega

theorem strLt_asymm {a b : String} (h : strLt a b = true) : strLt b a = false :=
  charsLt_asymm a.data b.data h

theorem strLt_cotrans {a c : String} (b : String) (h : strLt a c = true) :
    strLt a b = true ∨ strLt b c = true :=
  charsLt_cotrans a.data b.data c.data h

theorem keyLt_iff (a b : Job) :
    keyLt a b = true ↔
      (a.priority < b.priority ∨
        (a.priority = b.priority ∧ strLt a.created_at b.created_at = true)) := by
  simp [keyLt]

theorem keyLt_asymm (a b : Job) (h : keyLt a b = true) : keyLt b a = false := by
  rw [keyLt_iff] at h
  rw [← Bool.not_eq_true, keyLt_iff]
  rintro (h1 | ⟨h2, hs⟩)
  · rcases h with ha | ⟨hb, _⟩ <;> omega
  · rcases h with ha | ⟨hb, hs'⟩
    · omega
    · have := strLt_asymm hs'
      rw [this] at hs
      exact absurd hs (by simp)

theorem keyLt_cotrans (a b c : Job) (h : keyLt a c = true) :
    keyLt a b = true ∨ keyLt b c = true := by
  rw [keyLt_iff] at h
  rw [keyLt_iff, keyLt_iff]
  rcases h with h1 | ⟨h2, hs⟩
  · by_cases hb : a.priority < b.priority
    · left; left; exact hb
    · right; left; omega
  · rcases lt_trichotomy a.priority b.priority with ht | ht | ht
    · left; left; exact ht
    · rcases strLt_cotrans b.created_at hs with hab | hbc
      · left; right; exact ⟨ht, hab⟩
      · right; right; exact ⟨by omega, hbc⟩
    · right; left; omega

/-! ### Facts about the `LIMIT 1` selection -/

theorem selectMinBy_eq_none (lt : Job → Job → Bool) (l : List Job) :
    selectMinBy lt l = none ↔ l = [] := by
  cases l with
  | nil => simp [selectMinBy]
  | cons r rs =>
    simp only [selectMinBy]
    cases selectMinBy lt rs with
    | none => simp
    | some m => by_cases h : lt m r = true <;> simp [h]

theorem selectMinBy_mem (lt : Job → Job → Bool) :
    ∀ (l : List Job) (m : Job), selectMinBy lt l = some m → m ∈ l := by
  intro l
  induction l with
  | nil => intro m h; simp [selectMinBy] at h
  | cons r rs ih =>
    intro m h
    simp only [selectMinBy] at h
    cases hrec : selectMinBy lt rs with
    | none => rw [hrec] at h; simp at h; simp [h]
    | some m0 =>
      rw [hrec] at h
      by_cases hc : lt m0 r = true
      · simp [hc] at h
        right
        rw [← h]
        exact ih m0 hrec
      · simp [hc] at h
        simp [h]

theorem lt_self_false_of_asymm (lt : Job → Job → Bool)
    (hasymm : ∀ a b, lt a b = true → lt b a = false) (r : Job) : lt r r = false := by
  by_cases h : lt r r = true
  · have := hasymm r r h
    rw [this] at h
    exact absurd h (by simp)
  · simpa using h

theorem selectMinBy_min (lt : Job → Job → Bool)
    (hasymm : ∀ a b, lt a b = true → lt b a = false)
    (hcotrans : ∀ a b c, lt a c = true → lt a b = true ∨ lt b c = true) :
    ∀ (l : List Job) (m : Job), selectMinBy lt l = some m →
      ∀ x ∈ l, lt x m = false := by
  intro l
  induction l with
  | nil => intro m h; simp [selectMinBy] at h
  | cons r rs ih =>
    intro m h x hx
    simp only [selectMinBy] at h
    cases hrec : selectMinBy lt rs with
    | none =>
      rw [hrec] at h
      have hrm : r = m := by simpa using h
      rw [selectMinBy_eq_none] at hrec
      subst hrec
      have hxr : x = r := by simpa using hx
      rw [hxr, hrm]
      exact lt_self_false_of_asymm lt hasymm m
    | some m0 =>
      rw [hrec] at h
      by_cases hc : lt m0 r = true
      · have hm : m0 = m := by simpa [hc] using h
        rcases List.mem_cons.mp hx with hx1 | hx1
        · rw [hx1, ← hm]
          exact hasymm m0 r hc
        · rw [← hm]
          exact ih m0 hrec x hx1
      · have hm : r = m := by simpa [hc] using h
        rcases List.mem_cons.mp hx with hx1 | hx1
        · rw [hx1, ← hm]
          exact lt_self_false_of_asymm lt hasymm r
        · have hxm0 := ih m0 hrec x hx1
          rw [← hm]
          by_cases hxr : lt x r = true
          · rcases hcotrans x m0 r hxr with ha | hb
            · rw [hxm0] at ha; exact absurd ha (by simp)
            · rw [Bool.not_eq_true] at hc
              rw [hc] at hb
              exact absurd hb (by simp)
          · simpa using hxr

/-! ### Facts about the store operations -/

theorem find_replace (l : List Job) (job_id : String) (x : Job) (hx : x.id = job_id) :
    ((l.filter fun r => decide (¬ r.id = job_id)) ++ [x]).find?
        (fun r => decide (r.id = job_id)) = some x := by
  induction l with
  | nil => simp [List.find?, hx]
  | cons r rs ih =>
    by_cases h : r.id = job_id
    · simpa [List.filter_cons, h] using ih
    · simpa [List.filter_cons, h, List.find?_cons] using ih

theorem get_save_self (st : Storage) (j : Job) (now : String) :
    (st.save_job j now).get_job j.id =
      some { j with updated_at := now, locked_by := none, locked_at := none } := by
  simp only [Storage.save_job, Storage.get_job]
  rw [find_replace st.jobs j.id
    { j with updated_at := now, locked_by := none, locked_at := none } rfl]
  rfl

theorem get_job_some (st : Storage) (job_id : String) (j : Job)
    (h : st.get_job job_id = some j) :
    ∃ r ∈ st.jobs, r.id = job_id ∧ j = projectRow r := by
  unfold Storage.get_job at h
  cases hf : st.jobs.find? (fun r => decide (r.id = job_id)) with
  | none => rw [hf] at h; exact absurd h (by simp)
  | some r =>
    rw [hf] at h
    have hm := List.mem_of_find?_eq_some hf
    have hp := List.find?_some hf
    simp only [decide_eq_true_eq] at hp
    simp only [Option.map_some', Option.some.injEq] at h
    exact ⟨r, hm, hp, h.symm⟩

theorem get_job_id (st : Storage) (job_id : String) (j : Job)
    (h : st.get_job job_id = some j) : j.id = job_id := by
  obtain ⟨r, _, hid, hj⟩ := get_job_some st job_id j h
  rw [hj]
  exact hid

theorem get_job_locks (st : Storage) (job_id : String) (j : Job)
    (h : st.get_job job_id = some j) : j.locked_by = none ∧ j.locked_at = none := by
  obtain ⟨r, _, _, hj⟩ := get_job_some st job_id j h
  rw [hj]
  exact ⟨rfl, rfl⟩

theorem find?_map_projectRow (l : List Job) (job_id : String) :
    (l.map projectRow).find? (fun r => decide (r.id = job_id)) =
      (l.find? fun r => decide (r.id = job_id)).map projectRow := by
  induction l with
  | nil => rfl
  | cons r rs ih =>
    by_cases h : r.id = job_id
    · simp [List.find?_cons, projectRow, h]
    · simp [List.find?_cons, projectRow, h, ih]

theorem enqueueDict_preserves (cfg : Config) (pf : Option PriorityFlag) (tf : Option Nat)
    (d : JobDict) :
    (enqueueDict cfg pf tf d).id = d.id ∧
      (enqueueDict cfg pf tf d).command = d.command ∧
      (enqueueDict cfg pf tf d).state = d.state ∧
      (enqueueDict cfg pf tf d).attempts = d.attempts := by
  unfold enqueueDict
  cases pf <;> cases tf <;> by_cases h1 : d.max_retries.isNone <;>
    simp only [h1, if_true, if_false, Bool.false_eq_true] <;>
    first
      | (refine ⟨rfl, rfl, rfl, rfl⟩)
      | (by_cases h2 : d.priority.isNone <;> simp [h2])

/-! ### Claim theorems -/

theorem handle_job_failure_cases (cfg : Config) (retryAt : Nat → String) (job : Job)
    (msg : String) :
    (handle_job_failure cfg retryAt job msg).attempts = job.attempts ∧
    (job.max_retries ≤ job.attempts →
      (handle_job_failure cfg retryAt job msg).state = JobState.DEAD ∧
      (handle_job_failure cfg retryAt job msg).next_retry_at = none) ∧
    (job.attempts < job.max_retries →
      (handle_job_failure cfg retryAt job msg).state = JobState.FAILED ∧
      (handle_job_failure cfg retryAt job msg).next_retry_at =
        some (retryAt (cfg.backoff_base ^ job.attempts))) := by
  unfold handle_job_failure
  by_cases h : job.max_retries ≤ job.attempts
  · simp [h]
  · simp [h]

/-- C2: an attempt that ends in a non-success outcome (non-zero exit code,
timeout, or runner exception) leaves `attempts` incremented by one; with
that incremented count, `attempts ≥ max_retries` yields `state = dead` and
`next_retry_at = null`, and otherwise `state = failed` with
`next_retry_at = now + backoff_base ^ attempts` seconds, the exponent being
the just-incremented count. -/
theorem execute_job_failure_retry (cfg : Config) (retryAt : Nat → String) (job : Job)
    (res : RunResult) (hf : res.isFailure = true) :
    (execute_job cfg retryAt job res).attempts = job.attempts + 1 ∧
    (job.max_retries ≤ job.attempts + 1 →
      (execute_job cfg retryAt job res).state = JobState.DEAD ∧
      (execute_job cfg retryAt job res).next_retry_at = none) ∧
    (job.attempts + 1 < job.max_retries →
      (execute_job cfg retryAt job res).state = JobState.FAILED ∧
      (execute_job cfg retryAt job res).next_retry_at =
        some (retryAt (cfg.backoff_base ^ (job.attempts + 1)))) := by
  cases res with
  | exited rc out err =>
    have hrc : ¬ rc = 0 := by simpa [RunResult.isFailure] using hf
    simp only [execute_job, if_neg hrc]
    exact handle_job_failure_cases cfg retryAt { job with attempts := job.attempts + 1 } _
  | timedOut =>
    simp only [execute_job]
    exact handle_job_failure_cases cfg retryAt { job with attempts := job.attempts + 1 } _
  | raised msg =>
    simp only [execute_job]
    exact handle_job_failure_cases cfg retryAt { job with attempts := job.attempts + 1 } _

/-- C3 (amended): an attempt whose command exits with code 0 increments
`attempts`, sets `state = completed` and `error_message = null`, and leaves
every other field — in particular `next_retry_at` — unchanged; the success
path never clears a `next_retry_at` left over from an earlier failure. -/
theorem execute_job_success_fields (cfg : Config) (retryAt : Nat → String) (job : Job)
    (out err : String) :
    execute_job cfg retryAt job (RunResult.exited 0 out err) =
      { job with attempts := job.attempts + 1, state := JobState.COMPLETED,
                 error_message := none } := rfl

/-- C6 (amended): the worker's failure handler produces `state = dead`
exactly when the (already incremented) `attempts` has reached
`max_retries`, so every job the handler kills satisfies
`attempts ≥ max_retries`. -/
theorem handle_job_failure_dead_iff (cfg : Config) (retryAt : Nat → String) (job : Job)
    (msg : String) :
    (handle_job_failure cfg retryAt job msg).state = JobState.DEAD ↔
      job.max_retries ≤ job.attempts := by
  unfold handle_job_failure
  by_cases h : job.max_retries ≤ job.attempts
  · simp [h]
  · have hne : JobState.FAILED ≠ JobState.DEAD := by decide
    simp [h, hne]

/-- C9: reading a stored job, saving the result back and reading again
returns the job unchanged in every field except `updated_at`. -/
theorem put_get_roundtrip (st : Storage) (job_id : String) (j : Job) (now : String)
    (h : st.get_job job_id = some j) :
    (st.save_job j now).get_job job_id = some { j with updated_at := now } := by
  have hid := get_job_id st job_id j h
  have hl := get_job_locks st job_id j h
  rw [← hid, get_save_self]
  obtain ⟨i, c, s, a, mr, t, p, ca, ua, nr, em, lb, la⟩ := j
  dsimp only at hl
  rw [hl.1, hl.2]

/-- C10: `get` never reveals lock state — the returned job always carries
`locked_by = None` and `locked_at = None`, and `get` cannot distinguish a
table from the same table with all lock columns cleared, because its
SELECT omits the lock columns. -/
theorem get_job_hides_locks (st : Storage) (job_id : String) :
    (∀ j, st.get_job job_id = some j → j.locked_by = none ∧ j.locked_at = none) ∧
    Storage.get_job ⟨st.jobs.map projectRow⟩ job_id = st.get_job job_id := by
  constructor
  · intro j h
    exact get_job_locks st job_id j h
  · simp only [Storage.get_job]
    rw [find?_map_projectRow]
    cases st.jobs.find? (fun r => decide (r.id = job_id)) with
    | none => rfl
    | some r => rfl

/-- C1 (amended): `acquire` returns a job exactly when some row is eligible
(pending, or failed and due, and not freshly locked); the returned job is
built from an eligible row that is minimal under
`priority ASC, created_at ASC` — but ties in that key are resolved by the
table's row order (the SELECT has no `id` tie-breaker), not by `id`. -/
theorem acquire_job_minimal (st : Storage) (w now cut : String) :
    (∀ j, (Storage.acquire_job st w now cut).1 = some j →
      ∃ r, r ∈ st.jobs ∧ eligibleJob now cut r = true ∧
        j = { projectRow r with state := JobState.PROCESSING } ∧
        ∀ q, q ∈ st.jobs → eligibleJob now cut q = true → keyLt q r = false) ∧
    ((Storage.acquire_job st w now cut).1 = none ↔
      ∀ r, r ∈ st.jobs → eligibleJob now cut r = false) := by
  unfold Storage.acquire_job
  cases hsel : selectMinBy keyLt (st.jobs.filter (eligibleJob now cut)) with
  | none =>
    dsimp only
    constructor
    · intro j hj
      exact absurd hj (by simp)
    · rw [selectMinBy_eq_none, List.filter_eq_nil_iff] at hsel
      constructor
      · intro _ r hr
        have := hsel r hr
        simpa using this
      · intro _
        rfl
  | some row =>
    dsimp only
    constructor
    · intro j hj
      have hj' : { projectRow row with state := JobState.PROCESSING } = j := by
        simpa using hj
      have hmem := selectMinBy_mem keyLt _ row hsel
      rw [List.mem_filter] at hmem
      refine ⟨row, hmem.1, hmem.2, hj'.symm, ?_⟩
      intro q hq hql
      exact selectMinBy_min keyLt keyLt_asymm keyLt_cotrans _ row hsel q
        (List.mem_filter.mpr ⟨hq, hql⟩)
    · constructor
      · intro h
        exact absurd h (by simp)
      · intro hall
        exfalso
        have hmem := selectMinBy_mem keyLt _ row hsel
        rw [List.mem_filter] at hmem
        have hcontra := hall row hmem.1
        rw [hmem.2] at hcontra
        exact absurd hcontra (by simp)

/-- C4 (amended): `acquire` can only ever return a job whose stored row was
`pending` or `failed` — a `processing` row is never eligible, no matter how
stale its lock is; a crashed worker's `processing` job is recovered by the
startup reaper, which rewrites it to `failed` with the lock cleared. -/
theorem acquire_job_only_pending_or_failed (st : Storage) (w now cut : String) :
    (∀ j, (Storage.acquire_job st w now cut).1 = some j →
      ∃ r, r ∈ st.jobs ∧ r.id = j.id ∧
        (r.state = JobState.PENDING ∨ r.state = JobState.FAILED)) ∧
    (∀ r, r ∈ st.jobs → r.state = JobState.PROCESSING →
      { r with state := JobState.FAILED, locked_by := none, locked_at := none } ∈
        (Storage.reap_stuck st).jobs) := by
  constructor
  · intro j hj
    unfold Storage.acquire_job at hj
    cases hsel : selectMinBy keyLt (st.jobs.filter (eligibleJob now cut)) with
    | none =>
      rw [hsel] at hj
      exact absurd hj (by simp)
    | some row =>
      rw [hsel] at hj
      have hj' : { projectRow row with state := JobState.PROCESSING } = j := by
        simpa using hj
      have hmem := selectMinBy_mem keyLt _ row hsel
      rw [List.mem_filter] at hmem
      have hstate : row.state = JobState.PENDING ∨ row.state = JobState.FAILED := by
        have he := hmem.2
        unfold eligibleJob at he
        rw [Bool.and_eq_true, Bool.or_eq_true] at he
        rcases he.1 with h | h
        · left
          exact of_decide_eq_true h
        · right
          rw [Bool.and_eq_true] at h
          exact of_decide_eq_true h.1
      subst hj'
      exact ⟨row, hmem.1, rfl, hstate⟩
  · intro r hr hp
    have hm : { r with state := JobState.FAILED, locked_by := none, locked_at := none } ∈
        st.jobs.map (fun q => if q.state = JobState.PROCESSING then
          { q with state := JobState.FAILED, locked_by := none, locked_at := none } else q) := by
      refine List.mem_map.mpr ⟨r, hr, ?_⟩
      simp [hp]
    simpa [Storage.reap_stuck] using hm

/-- C5 (amended): when `acquire` finds a candidate, the database row is
updated to `locked_by = worker_id`, `locked_at = now`,
`state = processing`; the `Job` value returned to the caller carries
`state = processing` but `locked_by = None` and `locked_at = None`,
because the SELECT it is built from omits the lock columns and only the
`state` attribute is set on the Python object. -/
theorem acquire_job_lock_fields (st : Storage) (w now cut : String) :
    ∀ j, (Storage.acquire_job st w now cut).1 = some j →
      j.state = JobState.PROCESSING ∧ j.locked_by = none ∧ j.locked_at = none ∧
      ∃ r, r ∈ (Storage.acquire_job st w now cut).2.jobs ∧ r.id = j.id ∧
        r.state = JobState.PROCESSING ∧ r.locked_by = some w ∧ r.locked_at = some now := by
  intro j hj
  unfold Storage.acquire_job at hj ⊢
  cases hsel : selectMinBy keyLt (st.jobs.filter (eligibleJob now cut)) with
  | none =>
    rw [hsel] at hj
    exact absurd hj (by simp)
  | some row =>
    rw [hsel] at hj
    dsimp only at hj ⊢
    have hj' : { projectRow row with state := JobState.PROCESSING } = j := by
      simpa using hj
    subst hj'
    have hmem := selectMinBy_mem keyLt _ row hsel
    rw [List.mem_filter] at hmem
    refine ⟨rfl, rfl, rfl, ?_⟩
    have hm : { row with locked_by := some w, locked_at := some now, state := JobState.PROCESSING } ∈
        st.jobs.map (fun q => if q.id = row.id then
          { q with locked_by := some w, locked_at := some now, state := JobState.PROCESSING }
          else q) := by
      refine List.mem_map.mpr ⟨row, hmem.1, ?_⟩
      simp
    exact ⟨{ row with locked_by := some w, locked_at := some now, state := JobState.PROCESSING },
      hm, rfl, rfl, rfl, rfl⟩

/-- C7: `dlq retry <id>` succeeds exactly when the job exists in state
`dead`; on any other input it exits 1 and leaves the store unchanged; on
success the job is persisted with `state = pending`,
`error_message = null`, `next_retry_at = null`, and `attempts` reset to 0
exactly when the flag is given. -/
theorem dlq_retry_spec (st : Storage) (job_id : String) (r : Bool) (now : String) :
    ((dlq_retry st job_id r now).exitCode = 0 ↔
      ∃ j, st.get_job job_id = some j ∧ j.state = JobState.DEAD) ∧
    ((dlq_retry st job_id r now).exitCode ≠ 0 → dlq_retry st job_id r now = ⟨1, st⟩) ∧
    (∀ j, st.get_job job_id = some j → j.state = JobState.DEAD →
      (dlq_retry st job_id r now).store.get_job job_id =
        some { j with state := JobState.PENDING, error_message := none,
                      next_retry_at := none,
                      attempts := if r then 0 else j.attempts, updated_at := now }) := by
  unfold dlq_retry
  cases hg : st.get_job job_id with
  | none =>
    refine ⟨by simp, by intro _; rfl, by intro j hj; exact absurd hj (by simp)⟩
  | some j0 =>
    dsimp only
    have hid : j0.id = job_id := get_job_id st job_id j0 hg
    have hl := get_job_locks st job_id j0 hg
    by_cases hs : j0.state = JobState.DEAD
    · rw [if_pos hs]
      refine ⟨?_, ?_, ?_⟩
      · exact iff_of_true rfl ⟨j0, rfl, hs⟩
      · intro h0
        exact absurd rfl h0
      · intro j hj hjd
        have hjj : j0 = j := by simpa using hj
        subst hjj
        rw [← hid]
        have := get_save_self st
          { j0 with state := JobState.PENDING, error_message := none,
                    next_retry_at := none,
                    attempts := if r then 0 else j0.attempts } now
        dsimp only at this ⊢
        rw [this]
        obtain ⟨i, c, s, a, mr, t, p, ca, ua, nr, em, lb, la⟩ := j0
        dsimp only at hl
        rw [hl.1, hl.2]
    · rw [if_neg hs]
      refine ⟨?_, ?_, ?_⟩
      · refine iff_of_false (by simp) ?_
        rintro ⟨j, hj, hjd⟩
        have hjj : j0 = j := by simpa using hj
        subst hjj
        exact hs hjd
      · intro _
        rfl
      · intro j hj hjd
        have hjj : j0 = j := by simpa using hj
        subst hjj
        exact absurd hjd hs

/-- C8 (amended): a job enqueued from a JSON object that does **not**
supply the `state` or `attempts` keys is persisted with `state = pending`
and `attempts = 0`; this does not hold for arbitrary JSON, because
`Job.from_dict` copies a supplied `state` or `attempts` straight into the
new job. -/
theorem enqueue_defaults_pending (st : Storage) (cfg : Config) (pf : Option PriorityFlag)
    (tf : Option Nat) (d : JobDict) (now : String) (i : String)
    (hid : d.id = some i) (hs : d.state = none) (ha : d.attempts = none)
    (h0 : (enqueue st cfg pf tf d now).exitCode = 0) :
    ∃ j, (enqueue st cfg pf tf d now).store.get_job i = some j ∧
      j.state = JobState.PENDING ∧ j.attempts = 0 := by
  obtain ⟨hpid, hpc, hps, hpa⟩ := enqueueDict_preserves cfg pf tf d
  unfold enqueue at h0 ⊢
  cases hfd : Job.from_dict (enqueueDict cfg pf tf d) now with
  | none =>
    rw [hfd] at h0
    simp at h0
  | some job =>
    rw [hfd] at h0
    dsimp only at h0 ⊢
    cases hg : st.get_job job.id with
    | some x =>
      rw [hg] at h0
      simp at h0
    | none =>
      rw [hg] at h0
      dsimp only at h0 ⊢
      unfold Job.from_dict at hfd
      rw [hpid, hid] at hfd
      cases hc : (enqueueDict cfg pf tf d).command with
      | none =>
        rw [hc] at hfd
        exact absurd hfd (by simp)
      | some c =>
        rw [hc] at hfd
        have hjob := Option.some.inj hfd
        have hjid : job.id = i := by rw [← hjob]
        have hjstate : job.state = JobState.PENDING := by
          rw [← hjob]
          dsimp only
          rw [hps, hs]
          rfl
        have hjatt : job.attempts = 0 := by
          rw [← hjob]
          dsimp only
          rw [hpa, ha]
          rfl
        rw [← hjid, get_save_self]
        refine ⟨{ job with updated_at := now, locked_by := none, locked_at := none },
          rfl, ?_, ?_⟩
        · exact hjstate
        · exact hjatt

/-! ### Concrete stores and inputs for counterexamples and witnesses -/

def cfgDef : Config := {}

def fmtW : Nat → String := fun n => toString n

/-- Modelled from the spec: "Ordering within the eligible set:
`priority ASC, created_at ASC`. Ties broken by `id` for determinism." —
the ordering C1 claims `acquire` minimises, including the `id`
tie-breaker, which the SQL `ORDER BY` does not have. -/
def specKeyLt (a b : Job) : Bool :=
  decide (a.priority < b.priority) ||
    (a.priority == b.priority &&
      (strLt a.created_at b.created_at ||
        (a.created_at == b.created_at && strLt a.id b.id)))

/-- Modelled from the spec: the job the C1 ordering (with id tie-break)
selects among the eligible rows. -/
def specSelectedJob (st : Storage) (now cut : String) : Option Job :=
  selectMinBy specKeyLt (st.jobs.filter (eligibleJob now cut))

def stC1 : Storage := ⟨[
  { id := "jobB", command := "c", state := JobState.PENDING, created_at := "T0", updated_at := "T0" },
  { id := "jobA", command := "c", state := JobState.PENDING, created_at := "T0", updated_at := "T0" }]⟩

/-- C1 counterexample: two eligible pending jobs with equal priority and
equal `created_at`; the row order has id "jobB" before "jobA".  `acquire`
returns "jobB" (first row among the key-ties), while the claimed ordering
with its `id` tie-break selects "jobA". -/
theorem acquire_job_id_tiebreak_cex :
    ((Storage.acquire_job stC1 "w" "T1" "T0").1.map Job.id = some "jobB") ∧
    (specSelectedJob stC1 "T1" "T0").map Job.id = some "jobA" ∧
    ("jobB" : String) ≠ "jobA" := by decide

def jobC3 : Job := { id := "f1", command := "c", state := JobState.FAILED, attempts := 1, created_at := "T0", updated_at := "T0", next_retry_at := some "TR", error_message := some "boom" }

/-- C3 counterexample: a previously failed job carrying
`next_retry_at = "TR"` whose command then exits 0 ends up `completed`
with `next_retry_at` still `"TR"`, and is persisted that way — the
success path never clears `next_retry_at`, so the claimed invariant
fails for `completed`. -/
theorem completed_keeps_next_retry_cex :
    (execute_job cfgDef fmtW jobC3 (RunResult.exited 0 "" "")).state = JobState.COMPLETED ∧
    (execute_job cfgDef fmtW jobC3 (RunResult.exited 0 "" "")).next_retry_at = some "TR" ∧
    ((Storage.save_job ⟨[jobC3]⟩
        (execute_job cfgDef fmtW jobC3 (RunResult.exited 0 "" "")) "T2").get_job "f1").map
      (fun j => (j.state, j.next_retry_at)) = some (JobState.COMPLETED, some "TR") ∧
    (some "TR" : Option String) ≠ none := by decide

def stC4 : Storage := ⟨[{ id := "p1", command := "c", state := JobState.PROCESSING, created_at := "T0", updated_at := "T0", locked_by := some "w0", locked_at := some "T0" }]⟩

/-- C4 counterexample: the only job is `processing` with `locked_by` set
and `locked_at = "T0"` far below the stale cutoff `"T5"` (the lock *is*
stale by the 5-minute clause's comparison), yet `acquire` returns
absent — a `processing` row is never eligible. -/
theorem stale_processing_not_acquired_cex :
    (Storage.acquire_job stC4 "w2" "T6" "T5").1 = none ∧
    strLt "T0" "T5" = true ∧
    stC4.jobs.map Job.state = [JobState.PROCESSING] := by decide

def stC5 : Storage := ⟨[{ id := "q1", command := "c", state := JobState.PENDING, created_at := "T0", updated_at := "T0" }]⟩

/-- C5 counterexample: `acquire` does find and return a job here, but the
returned value's `locked_by` is `None` — not the acquiring worker id
"w1" — and its `locked_at` is `None`, not the acquisition time. -/
theorem acquire_job_returned_locks_cex :
    ((Storage.acquire_job stC5 "w1" "T3" "T2").1.map Job.locked_by = some none) ∧
    ((Storage.acquire_job stC5 "w1" "T3" "T2").1.map Job.locked_at = some none) ∧
    some (none : Option String) ≠ some (some "w1") := by decide

def dictC6 : JobDict := { id := some "d1", command := some "c", state := some JobState.DEAD, attempts := some 0, max_retries := some 3 }

/-- C6 counterexample: a single `enqueue` of
`{"id":"d1","command":"c","state":"dead","attempts":0,"max_retries":3}`
succeeds and stores a reachable job with `state = dead` and
`attempts = 0 < 3 = max_retries`. -/
theorem enqueue_dead_attempts_cex :
    (enqueue ⟨[]⟩ cfgDef none none dictC6 "T0").exitCode = 0 ∧
    ((enqueue ⟨[]⟩ cfgDef none none dictC6 "T0").store.get_job "d1").map
      (fun j => (j.state, j.attempts, j.max_retries)) = some (JobState.DEAD, 0, 3) ∧
    (0 : Nat) < 3 := by decide

def dictC8 : JobDict := { id := some "e1", command := some "c", state := some JobState.COMPLETED, attempts := some 7 }

/-- C8 counterexample: `enqueue` of a JSON object that supplies
`state = "completed"` and `attempts = 7` persists exactly those values —
not `pending` / `0`. -/
theorem enqueue_state_from_json_cex :
    (enqueue ⟨[]⟩ cfgDef none none dictC8 "T0").exitCode = 0 ∧
    ((enqueue ⟨[]⟩ cfgDef none none dictC8 "T0").store.get_job "e1").map
      (fun j => (j.state, j.attempts)) = some (JobState.COMPLETED, 7) ∧
    JobState.COMPLETED ≠ JobState.PENDING := by decide

/-! ### Witnesses -/

def jobW1 : Job := { id := "a1", command := "c", state := JobState.PENDING, created_at := "T0", updated_at := "T0" }

def stW1 : Storage := ⟨[jobW1]⟩

/-- Witness for C1: on a one-job store, `acquire` returns the pending job,
which is eligible and minimal. -/
theorem acquire_job_minimal_witness :
    ∃ r, r ∈ stW1.jobs ∧ eligibleJob "T1" "T0" r = true ∧
      { projectRow jobW1 with state := JobState.PROCESSING } =
        { projectRow r with state := JobState.PROCESSING } ∧
      ∀ q, q ∈ stW1.jobs → eligibleJob "T1" "T0" q = true → keyLt q r = false :=
  (acquire_job_minimal stW1 "w" "T1" "T0").1
    { projectRow jobW1 with state := JobState.PROCESSING } (by decide)

def jobW2a : Job := { id := "w2a", command := "c", state := JobState.PROCESSING, attempts := 2, max_retries := 3, created_at := "T0", updated_at := "T0" }

def jobW2b : Job := { id := "w2b", command := "c", state := JobState.PROCESSING, attempts := 0, max_retries := 3, created_at := "T0", updated_at := "T0" }

/-- Witness for C2: an exit-code-1 attempt at `attempts = 2`,
`max_retries = 3` goes to the DLQ; a timeout at `attempts = 0` schedules a
retry after `backoff_base ^ 1` seconds. -/
theorem execute_job_failure_retry_witness :
    ((execute_job cfgDef fmtW jobW2a (RunResult.exited 1 "" "")).state = JobState.DEAD ∧
      (execute_job cfgDef fmtW jobW2a (RunResult.exited 1 "" "")).next_retry_at = none) ∧
    ((execute_job cfgDef fmtW jobW2b RunResult.timedOut).state = JobState.FAILED ∧
      (execute_job cfgDef fmtW jobW2b RunResult.timedOut).next_retry_at =
        some (fmtW (cfgDef.backoff_base ^ (jobW2b.attempts + 1)))) :=
  ⟨(execute_job_failure_retry cfgDef fmtW jobW2a (RunResult.exited 1 "" "")
      (by decide)).2.1 (by decide),
   (execute_job_failure_retry cfgDef fmtW jobW2b RunResult.timedOut
      (by decide)).2.2 (by decide)⟩

def jobW4 : Job := { id := "w4", command := "c", state := JobState.FAILED, created_at := "T0", updated_at := "T0" }

def stW4 : Storage := ⟨[jobW4]⟩

/-- Witness for C4: a due failed job is acquired, and its stored row was
indeed `pending` or `failed`. -/
theorem acquire_job_only_pending_or_failed_witness :
    ∃ r, r ∈ stW4.jobs ∧
      r.id = ({ projectRow jobW4 with state := JobState.PROCESSING } : Job).id ∧
      (r.state = JobState.PENDING ∨ r.state = JobState.FAILED) :=
  (acquire_job_only_pending_or_failed stW4 "w" "T1" "T0").1
    { projectRow jobW4 with state := JobState.PROCESSING } (by decide)

def jobW5 : Job := { id := "w5", command := "c", state := JobState.PENDING, created_at := "T0", updated_at := "T0" }

def stW5 : Storage := ⟨[jobW5]⟩

/-- Witness for C5: acquiring the one pending job as worker "w" at time
"T1" returns a `processing` job with no lock fields while the stored row
carries the lock. -/
theorem acquire_job_lock_fields_witness :
    ({ projectRow jobW5 with state := JobState.PROCESSING } : Job).state = JobState.PROCESSING ∧
    ({ projectRow jobW5 with state := JobState.PROCESSING } : Job).locked_by = none ∧
    ({ projectRow jobW5 with state := JobState.PROCESSING } : Job).locked_at = none ∧
    ∃ r, r ∈ (Storage.acquire_job stW5 "w" "T1" "T0").2.jobs ∧
      r.id = ({ projectRow jobW5 with state := JobState.PROCESSING } : Job).id ∧
      r.state = JobState.PROCESSING ∧ r.locked_by = some "w" ∧ r.locked_at = some "T1" :=
  acquire_job_lock_fields stW5 "w" "T1" "T0"
    { projectRow jobW5 with state := JobState.PROCESSING } (by decide)

def jobW7 : Job := { id := "d7", command := "c", state := JobState.DEAD, attempts := 3, created_at := "T0", updated_at := "T0", error_message := some "x" }

def stW7 : Storage := ⟨[jobW7]⟩

/-- Witness for C7: retrying a dead job with `--reset-attempts` stores it
back as pending with cleared error, no retry time and zero attempts. -/
theorem dlq_retry_spec_witness :
    (dlq_retry stW7 "d7" true "T2").store.get_job "d7" =
      some { jobW7 with state := JobState.PENDING, error_message := none,
                        next_retry_at := none,
                        attempts := if true then 0 else jobW7.attempts,
                        updated_at := "T2" } :=
  (dlq_retry_spec stW7 "d7" true "T2").2.2 jobW7 (by decide) (by decide)

def dictW8 : JobDict := { id := some "w8", command := some "c" }

/-- Witness for C8: enqueueing `{"id":"w8","command":"c"}` stores a
pending job with zero attempts. -/
theorem enqueue_defaults_pending_witness :
    ∃ j, (enqueue ⟨[]⟩ cfgDef none none dictW8 "T0").store.get_job "w8" = some j ∧
      j.state = JobState.PENDING ∧ j.attempts = 0 :=
  enqueue_defaults_pending ⟨[]⟩ cfgDef none none dictW8 "T0" "w8" rfl rfl rfl (by decide)

def jobW9 : Job := { id := "g9", command := "c", state := JobState.COMPLETED, created_at := "T0", updated_at := "T0" }

def stW9 : Storage := ⟨[jobW9]⟩

/-- Witness for C9 on a one-job store. -/
theorem put_get_roundtrip_witness :
    (stW9.save_job jobW9 "T5").get_job "g9" = some { jobW9 with updated_at := "T5" } :=
  put_get_roundtrip stW9 "g9" jobW9 "T5" (by decide)

def jobW10 : Job := { id := "x10", command := "c", state := JobState.PROCESSING, created_at := "T0", updated_at := "T0", locked_by := some "w", locked_at := some "T1" }

def stW10 : Storage := ⟨[jobW10]⟩

/-- Witness for C10: the stored row holds a live lock, yet the job `get`
returns has both lock fields `None`. -/
theorem get_job_hides_locks_witness :
    (projectRow jobW10).locked_by = none ∧ (projectRow jobW10).locked_at = none :=
  (get_job_hides_locks stW10 "x10").1 (projectRow jobW10) (by decide)
